import Mathlib

/-!
# Verification of the Maestro adapter SDK

Shallow embedding of `src/types/adapter.ts`, `src/maestro-adapter.ts` and the
small utilities they use, together with theorems settling the specification
claims about pagination, price computation, error handling and pool-state
construction.

Conventions of the embedding:
* JavaScript `null`/absent optional fields are `Option.none`.
* The upstream HTTP API is modelled as an oracle `Nat → α` giving the response
  to the k-th call (0-indexed); the pagination loop's observable behaviour is
  the list of cursor parameters it sent (one entry per call made) together with
  the value of the local variable `res` at return time (`none` for the initial
  `{} as ...` cast object, which has no `data` field).
* `big.js` numbers are exact rationals, except `div`, which (as in the library,
  with the default `DP = 20`, `RM = 1`) rounds the quotient to 20 decimal
  places, half away from zero, and throws on a zero divisor (`Option.none`).
-/

/-- One entry of a Maestro asset-transactions response (`data` array element);
only the fields the adapter reads (`tx_hash`, `timestamp`). -/
structure AssetTx where
  tx_hash : String
  timestamp : String
  deriving DecidableEq, Repr

/-- A Maestro `PaginatedAssetTx` response: `data` plus the pagination cursor
`next_cursor` (`none` = JSON `null`). -/
structure PaginatedAssetTx where
  data : List AssetTx
  next_cursor : Option String
  deriving DecidableEq, Repr

/-- One asset inside a UTxO (`unit` and `amount`). -/
structure MaestroAsset where
  unit : String
  amount : Nat
  deriving DecidableEq, Repr

/-- One entry of a Maestro UTxOs-by-payment-credential response; only the
fields the adapter reads. -/
structure UtxoWithSlot where
  address : String
  assets : List MaestroAsset
  tx_hash : String
  index : Nat
  datum_hash : Option String
  deriving DecidableEq, Repr

/-- A Maestro `PaginatedUtxoWithSlot` response: `data` plus `next_cursor`. -/
structure PaginatedUtxoWithSlot where
  data : List UtxoWithSlot
  next_cursor : Option String
  deriving DecidableEq, Repr

/-- JavaScript truthiness of the `cursor` variable (`string | null`): truthy
exactly when it is a non-empty string.  `if (cursor) { queryParam.cursor = cursor; }` -/
def cursorTruthy : Option String → Bool
  | some s => s != ""
  | none => false

/-- The body of the `while (curr < page)` pagination loop shared by
`getPaginatedAssetTx` and `getPaginatedUtxosByPaymentCred`
(src/types/adapter.ts, lines 248-292), recursing on the number of remaining
iterations `page - curr`.

Arguments mirror the mutable locals of the TypeScript: `k` is the number of
calls already made (so `api k` is the response to the next call), `res` the
current value of `res` (`none` for the initial `{}` cast), `cursor` the local
`cursor` variable (`some ""` initially, `none` once a response carried a
`null` cursor), and `qcursor` the current `queryParam.cursor` field (`none` =
not set).  The result is the list of `queryParam.cursor` values sent, one per
call made, and the returned `res`. -/
def paginateGo (nc : α → Option String) (api : Nat → α) :
    Nat → Nat → Option α → Option String → Option String →
    List (Option String) × Option α
  | 0, _, res, _, _ => ([], res)
  | r + 1, k, res, cursor, qcursor =>
    let qcursor' := if cursorTruthy cursor then cursor else qcursor
    if cursor = none then ([], res)
    else
      let newRes := api k
      let rest := paginateGo nc api r (k + 1) (some newRes) (nc newRes) qcursor'
      (qcursor' :: rest.1, rest.2)

/-- Entry to the pagination loop: `curr = 0`, `res = {}`, `cursor = ""`,
no cursor in the query parameters yet.  `page` is a TypeScript `number`
(may be non-positive, in which case the loop body never runs). -/
def paginate (nc : α → Option String) (api : Nat → α) (page : Int) :
    List (Option String) × Option α :=
  paginateGo nc api page.toNat 0 none (some "") none

/-- `getPaginatedAssetTx` (src/types/adapter.ts, lines 272-292), with the
upstream `this.api.assets.assetTxs` calls abstracted as the oracle `api`. -/
def getPaginatedAssetTx (api : Nat → PaginatedAssetTx) (page : Int) :
    List (Option String) × Option PaginatedAssetTx :=
  paginate PaginatedAssetTx.next_cursor api page

/-- `getPaginatedUtxosByPaymentCred` (src/types/adapter.ts, lines 248-270),
with the upstream `this.api.addresses.utxosByPaymentCred` calls abstracted as
the oracle `api`. -/
def getPaginatedUtxosByPaymentCred (api : Nat → PaginatedUtxoWithSlot) (page : Int) :
    List (Option String) × Option PaginatedUtxoWithSlot :=
  paginate PaginatedUtxoWithSlot.next_cursor api page

/-- A pool-history entry (`PoolHistory` from src/types/pool.ts, whose source is
not in the extract; the fields are pinned by its two construction sites:
`txHash`/`time` always, `txIndex`/`blockHeight` set only by the
maestro-adapter.ts variant, and by the spec sentence "transaction hash and
timestamp, optionally block height/index").  `time` holds the upstream
timestamp string handed to `new Date(...)`. -/
structure PoolHistory where
  txHash : String
  txIndex : Option Int
  blockHeight : Option Int
  time : String
  deriving DecidableEq, Repr

/-- `getPoolHistory` of src/types/adapter.ts (lines 140-164): paginate the
asset-transaction list to `page`, then map each entry to a `PoolHistory`.
Reading `.data` of the `{}` cast object returned by the helper when no call
was made throws a `TypeError`; that failure is `none`. -/
def getPoolHistory (api : Nat → PaginatedAssetTx) (page : Int) :
    Option (List PoolHistory) :=
  match (getPaginatedAssetTx api page).2 with
  | none => none
  | some res =>
    some (res.data.map fun tx =>
      { txHash := tx.tx_hash, txIndex := none, blockHeight := none,
        time := tx.timestamp })

/-- `getPoolHistory` of src/maestro-adapter.ts (lines 95-113): a single
(non-paginated) asset-transactions response is mapped to `PoolHistory` entries
with the hardcoded `txIndex: 0` and `blockHeight: 9913642` placeholders. -/
def maestroGetPoolHistory (res : PaginatedAssetTx) : List PoolHistory :=
  res.data.map fun tx =>
    { txHash := tx.tx_hash, txIndex := some 0, blockHeight := some 9913642,
      time := tx.timestamp }

/-! ## big.js decimal arithmetic (as used by `getPoolPrice`) -/

/-- big.js default division precision: `Big.DP = 20` decimal places. -/
def bigDP : Nat := 20

/-- big.js default rounding mode `Big.RM = 1` (`ROUND_HALF_UP`): round to the
nearest integer, ties away from zero. -/
def bigRound (q : ℚ) : ℤ :=
  if 0 ≤ q then ⌊q + 1 / 2⌋ else -⌊-q + 1 / 2⌋

/-- big.js `x.div(y)`: throws (`none`) on a zero divisor, otherwise the exact
quotient rounded to `Big.DP = 20` decimal places with `ROUND_HALF_UP`.
Addition, multiplication and `pow` with a non-negative integer exponent are
exact in big.js, so division is the only rounding operation the adapter
performs. -/
def bigDiv (x y : ℚ) : Option ℚ :=
  if y = 0 then none
  else some ((bigRound (x / y * 10 ^ bigDP) : ℚ) / 10 ^ bigDP)

/-- `getPoolPrice` (src/maestro-adapter.ts lines 167-187 and
src/types/adapter.ts lines 215-235; the two bodies are identical): divide each
reserve by `Big(10).pow(decimals)`, then return the two directional quotients.
`reserveA`/`reserveB` are the pool's (non-negative integer) reserves and
`decimalsA`/`decimalsB` the resolved decimals; a thrown big.js
division-by-zero error is `none`. -/
def getPoolPrice (reserveA reserveB : Nat) (decimalsA decimalsB : Nat) :
    Option (ℚ × ℚ) := do
  let adjustedReserveA ← bigDiv reserveA (10 ^ decimalsA)
  let adjustedReserveB ← bigDiv reserveB (10 ^ decimalsB)
  let priceAB ← bigDiv adjustedReserveA adjustedReserveB
  let priceBA ← bigDiv adjustedReserveB adjustedReserveA
  pure (priceAB, priceBA)

/-! ## `getAssetDecimals` and `isValidHex` -/

/-- `isValidHex` (src/maestro-adapter.ts lines 195-198 and the identical copy
in src/types/adapter.ts): the regex `^[0-9A-Fa-f]+$` accepts exactly the
non-empty strings of hexadecimal characters. -/
def isValidHex (hexString : String) : Bool :=
  hexString != "" &&
    hexString.toList.all fun c =>
      (('0' ≤ c && c ≤ '9') || ('A' ≤ c && c ≤ 'F') || ('a' ≤ c && c ≤ 'f'))

/-- `getAssetDecimals` (src/maestro-adapter.ts lines 146-157): `"lovelace"`
maps to 6; otherwise the asset-info lookup (modelled by its outcome `lookup`,
whose success value is `token_registry_metadata?.decimals`, `none` when the
registry metadata or its decimals field is absent) is consulted.  On lookup
failure the error is swallowed into `0` for valid bounded hex identifiers and
rethrown otherwise. -/
def getAssetDecimals (ε : Type) (asset : String) (lookup : Except ε (Option Nat)) :
    Except ε Nat :=
  if asset = "lovelace" then .ok 6
  else
    match lookup with
    | .ok d => .ok (d.getD 0)
    | .error err =>
      if isValidHex asset = true ∧ asset.length ≤ 122 then .ok 0
      else .error err

/-! ## Pool state construction (`getPoolInTx`) -/

/-- A transaction output as read from Maestro's `txInfo` response; only the
fields `getPoolInTx` uses (`address`, `assets`, `index`, `datum?.hash`). -/
structure TxOutput where
  address : String
  assets : List MaestroAsset
  index : Nat
  datum_hash : Option String
  deriving DecidableEq, Repr

/-- One entry of a `Value` (src/types/tx.internal.ts, produced by `toValue`):
asset `unit` with its quantity as a decimal string rendered here as `Nat`. -/
structure ValueEntry where
  unit : String
  quantity : Nat
  deriving DecidableEq, Repr

/-- `toValue` (src/types/adapter.ts lines 242-246): map each asset to its
`unit`/`quantity` pair. -/
def toValue (assets : List MaestroAsset) : List ValueEntry :=
  assets.map fun asset => { unit := asset.unit, quantity := asset.amount }

/-- `PoolState` (src/types/pool.ts, not in the extract): per the spec's data
model, "address, output reference (transaction hash + index), asset reserves,
datum hash", matching the four constructor arguments passed at both
construction sites in the source. -/
structure PoolState where
  address : String
  txHash : String
  index : Nat
  value : List ValueEntry
  datumHash : String
  deriving DecidableEq, Repr

/-- The two ways `getPoolInTx` can throw: `checkValidPoolOutput` rejecting the
output, or the `invariant(dataHash, ...)` guard failing. -/
inductive PoolError
  | invalidPoolOutput
  | missingDatumHash
  deriving DecidableEq, Repr

/-- Modelled from the spec: `checkValidPoolOutput` lives in
src/types/pool.internal.ts, which is not in the extract.  Spec §3: "No
invariants beyond 'pool output must carry a datum hash' and 'address must
resolve to the expected script hash', both enforced as one-shot validation at
construction time" — so the check passes exactly when the address's payment
credential resolves to the expected pool script hash and the datum hash is
present (non-empty).  `scriptHashOf` abstracts `getScriptHashFromAddress`
(src/utils/address-utils.internal.ts), which delegates address decoding to the
external cardano library. -/
def checkValidPoolOutput (scriptHashOf : String → Option String)
    (poolScriptHash : String) (address : String) (_value : List ValueEntry)
    (datumHash : String) : Bool :=
  decide (scriptHashOf address = some poolScriptHash) && datumHash != ""

/-- `getPoolInTx` (src/maestro-adapter.ts lines 121-144 and src/types/adapter.ts
lines 172-192; identical bodies up to the axios wrapper): find the first
transaction output whose address resolves to the pool script hash; absent one,
return `null`; otherwise validate it (throwing `PoolError` on failure) and
build the `PoolState`.  `outputs` is the `outputs` array of the upstream
`txInfo` response and `poolScriptHash` the `POOL_SCRIPT_HASH` constant. -/
def getPoolInTx (scriptHashOf : String → Option String) (poolScriptHash : String)
    (txHash : String) (outputs : List TxOutput) :
    Except PoolError (Option PoolState) :=
  match outputs.find? fun o => decide (scriptHashOf o.address = some poolScriptHash) with
  | none => .ok none
  | some poolUtxo =>
    let poolValue := toValue poolUtxo.assets
    let dataHash := poolUtxo.datum_hash.getD ""
    if checkValidPoolOutput scriptHashOf poolScriptHash poolUtxo.address poolValue
        dataHash = false then .error .invalidPoolOutput
    else if dataHash = "" then .error .missingDatumHash
    else .ok (some { address := poolUtxo.address, txHash := txHash,
                     index := poolUtxo.index, value := poolValue,
                     datumHash := dataHash })

/-! ## Lemmas about the pagination loop -/

/-- Once the `cursor` variable is `null`, the loop body breaks immediately:
no call is made and the current `res` is returned. -/
lemma paginateGo_none (nc : α → Option String) (api : Nat → α) (r k : Nat)
    (res : Option α) (qc : Option String) :
    paginateGo nc api r k res none qc = ([], res) := by
  cases r <;> simp [paginateGo]

/-- When the loop has `r + 1` iterations left, the cursor variable is not
`null`, and the next `r` responses all carry a non-`null` cursor, the loop
makes exactly `r + 1` further calls and returns the last response. -/
lemma paginateGo_all_nonnull (nc : α → Option String) (api : Nat → α) :
    ∀ (r k : Nat) (res : Option α) (cursor qc : Option String),
      cursor ≠ none → (∀ i, i < r → nc (api (k + i)) ≠ none) →
      (paginateGo nc api (r + 1) k res cursor qc).1.length = r + 1 ∧
      (paginateGo nc api (r + 1) k res cursor qc).2 = some (api (k + r)) := by
  intro r
  induction r with
  | zero =>
    intro k res cursor qc hc _
    simp [paginateGo, hc]
  | succ r ih =>
    intro k res cursor qc hc h
    have h0 : nc (api k) ≠ none := by
      have := h 0 (Nat.succ_pos r)
      simpa using this
    have ihr := ih (k + 1) (some (api k)) (nc (api k))
      (if cursorTruthy cursor then cursor else qc) h0
      (fun i hi => by
        have := h (i + 1) (by omega)
        simpa [Nat.add_assoc, Nat.add_comm 1 i] using this)
    simp only [paginateGo, hc, if_false]
    constructor
    · simpa using ihr.1
    · have : k + 1 + r = k + (r + 1) := by omega
      rw [this] at ihr
      simpa using ihr.2

/-- When the `j`-th upcoming response (0-indexed) is the first to carry a
`null` cursor and the loop still has more than `j` iterations left, the loop
makes exactly `j + 1` further calls and returns that `j`-th response. -/
lemma paginateGo_null_stops (nc : α → Option String) (api : Nat → α) :
    ∀ (j r k : Nat) (res : Option α) (cursor qc : Option String),
      cursor ≠ none → j < r → (∀ i, i < j → nc (api (k + i)) ≠ none) →
      nc (api (k + j)) = none →
      (paginateGo nc api r k res cursor qc).1.length = j + 1 ∧
      (paginateGo nc api r k res cursor qc).2 = some (api (k + j)) := by
  intro j
  induction j with
  | zero =>
    intro r k res cursor qc hc hjr _ hnull
    obtain ⟨r', rfl⟩ : ∃ r', r = r' + 1 := ⟨r - 1, by omega⟩
    simp only [Nat.add_zero] at hnull
    simp [paginateGo, hc, hnull, paginateGo_none]
  | succ j ih =>
    intro r k res cursor qc hc hjr h hnull
    obtain ⟨r', rfl⟩ : ∃ r', r = r' + 1 := ⟨r - 1, by omega⟩
    have h0 : nc (api k) ≠ none := by
      have := h 0 (Nat.succ_pos j)
      simpa using this
    have ihr := ih r' (k + 1) (some (api k)) (nc (api k))
      (if cursorTruthy cursor then cursor else qc) h0 (by omega)
      (fun i hi => by
        have := h (i + 1) (by omega)
        simpa [Nat.add_assoc, Nat.add_comm 1 i] using this)
      (by
        have : k + 1 + j = k + (j + 1) := by omega
        rw [this]
        exact hnull)
    simp only [paginateGo, hc, if_false]
    constructor
    · simpa using ihr.1
    · have : k + 1 + j = k + (j + 1) := by omega
      rw [this] at ihr
      simpa using ihr.2

/-- The cursor sent with the first call a loop invocation makes is
`queryParam.cursor` after the truthiness update: the incoming cursor variable
if it is a non-empty string, the previous query-parameter value otherwise. -/
lemma paginateGo_trace_zero (nc : α → Option String) (api : Nat → α) :
    ∀ (r k : Nat) (res : Option α) (cursor qc v : Option String),
      (paginateGo nc api r k res cursor qc).1.get? 0 = some v →
      v = (if cursorTruthy cursor then cursor else qc) := by
  intro r k res cursor qc v h
  match r with
  | 0 => simp [paginateGo] at h
  | r + 1 =>
    by_cases hc : cursor = none
    · simp [paginateGo, hc] at h
    · simp [paginateGo, hc] at h
      exact h.symm

/-- The cursor sent with call `i + 1` (0-indexed) equals the `next_cursor` of
the response to call `i`, provided that cursor is truthy (a non-empty
string). -/
lemma paginateGo_trace_succ (nc : α → Option String) (api : Nat → α) :
    ∀ (i r k : Nat) (res : Option α) (cursor qc v : Option String),
      (paginateGo nc api r k res cursor qc).1.get? (i + 1) = some v →
      cursorTruthy (nc (api (k + i))) = true → v = nc (api (k + i)) := by
  intro i
  induction i with
  | zero =>
    intro r k res cursor qc v h ht
    simp only [Nat.add_zero] at ht ⊢
    match r with
    | 0 => simp [paginateGo] at h
    | r + 1 =>
      by_cases hc : cursor = none
      · simp [paginateGo, hc] at h
      · simp only [paginateGo, hc, if_false, List.get?] at h
        have := paginateGo_trace_zero nc api r (k + 1) (some (api k)) (nc (api k))
          (if cursorTruthy cursor then cursor else qc) v h
        rw [ht] at this
        simpa using this
  | succ i ih =>
    intro r k res cursor qc v h ht
    match r with
    | 0 => simp [paginateGo] at h
    | r + 1 =>
      by_cases hc : cursor = none
      · simp [paginateGo, hc] at h
      · simp only [paginateGo, hc, if_false, List.get?] at h
        have hk : k + 1 + i = k + (i + 1) := by omega
        have := ih r (k + 1) (some (api k)) (nc (api k))
          (if cursorTruthy cursor then cursor else qc) v h (by rw [hk]; exact ht)
        rw [hk] at this
        exact this

/-! ## Claim theorems: pagination -/

/-- C1: for every page number `N ≥ 1`, when each of the first `N - 1` responses
carries a non-null `next_cursor`, both `getPaginatedAssetTx` and
`getPaginatedUtxosByPaymentCred` make exactly `N` sequential calls and return
the response of the `N`-th call. -/
theorem paginated_returns_page_N (api : Nat → PaginatedAssetTx)
    (api' : Nat → PaginatedUtxoWithSlot) (N : Nat) (hN : 1 ≤ N)
    (h : ∀ i, i < N - 1 → (api i).next_cursor ≠ none)
    (h' : ∀ i, i < N - 1 → (api' i).next_cursor ≠ none) :
    ((getPaginatedAssetTx api (N : Int)).1.length = N ∧
      (getPaginatedAssetTx api (N : Int)).2 = some (api (N - 1))) ∧
    ((getPaginatedUtxosByPaymentCred api' (N : Int)).1.length = N ∧
      (getPaginatedUtxosByPaymentCred api' (N : Int)).2 = some (api' (N - 1))) := by
  obtain ⟨r, rfl⟩ : ∃ r, N = r + 1 := ⟨N - 1, by omega⟩
  have htn : ((r + 1 : Nat) : Int).toNat = r + 1 := by simp
  have t1 := paginateGo_all_nonnull PaginatedAssetTx.next_cursor api r 0 none
    (some "") none (by simp) (fun i hi => by simpa using h i (by omega))
  have t2 := paginateGo_all_nonnull PaginatedUtxoWithSlot.next_cursor api' r 0 none
    (some "") none (by simp) (fun i hi => by simpa using h' i (by omega))
  constructor
  · constructor
    · simpa [getPaginatedAssetTx, paginate, htn] using t1.1
    · simpa [getPaginatedAssetTx, paginate, htn] using t1.2
  · constructor
    · simpa [getPaginatedUtxosByPaymentCred, paginate, htn] using t2.1
    · simpa [getPaginatedUtxosByPaymentCred, paginate, htn] using t2.2

/-- Witness for C1 at `N = 2` with a constant-cursor response chain. -/
theorem paginated_returns_page_N_witness :
    ((getPaginatedAssetTx (fun _ => ⟨[], some "c"⟩) ((2 : Nat) : Int)).1.length = 2 ∧
      (getPaginatedAssetTx (fun _ => ⟨[], some "c"⟩) ((2 : Nat) : Int)).2 =
        some ⟨[], some "c"⟩) ∧
    ((getPaginatedUtxosByPaymentCred (fun _ => ⟨[], some "u"⟩) ((2 : Nat) : Int)).1.length = 2 ∧
      (getPaginatedUtxosByPaymentCred (fun _ => ⟨[], some "u"⟩) ((2 : Nat) : Int)).2 =
        some ⟨[], some "u"⟩) :=
  paginated_returns_page_N (fun _ => ⟨[], some "c"⟩) (fun _ => ⟨[], some "u"⟩) 2
    (by norm_num) (fun i _ => by simp) (fun i _ => by simp)

/-- C2: if the `k`-th response (`1 ≤ k < N`) is the first to carry a null
`next_cursor`, both pagination helpers stop after exactly `k` calls and return
that `k`-th response (no error). -/
theorem paginated_null_cursor_stops (api : Nat → PaginatedAssetTx)
    (api' : Nat → PaginatedUtxoWithSlot) (N k : Nat) (hk : 1 ≤ k) (hkN : k < N)
    (h : ∀ i, i < k - 1 → (api i).next_cursor ≠ none)
    (hnull : (api (k - 1)).next_cursor = none)
    (h' : ∀ i, i < k - 1 → (api' i).next_cursor ≠ none)
    (hnull' : (api' (k - 1)).next_cursor = none) :
    ((getPaginatedAssetTx api (N : Int)).1.length = k ∧
      (getPaginatedAssetTx api (N : Int)).2 = some (api (k - 1))) ∧
    ((getPaginatedUtxosByPaymentCred api' (N : Int)).1.length = k ∧
      (getPaginatedUtxosByPaymentCred api' (N : Int)).2 = some (api' (k - 1))) := by
  have htn : ((N : Nat) : Int).toNat = N := by simp
  have t1 := paginateGo_null_stops PaginatedAssetTx.next_cursor api (k - 1) N 0 none
    (some "") none (by simp) (by omega) (fun i hi => by simpa using h i hi)
    (by simpa using hnull)
  have t2 := paginateGo_null_stops PaginatedUtxoWithSlot.next_cursor api' (k - 1) N 0 none
    (some "") none (by simp) (by omega) (fun i hi => by simpa using h' i hi)
    (by simpa using hnull')
  constructor
  · constructor
    · have hl := t1.1
      simp only [getPaginatedAssetTx, paginate, htn]
      omega
    · have hr := t1.2
      simp only [getPaginatedAssetTx, paginate, htn]
      simpa using hr
  · constructor
    · have hl := t2.1
      simp only [getPaginatedUtxosByPaymentCred, paginate, htn]
      omega
    · have hr := t2.2
      simp only [getPaginatedUtxosByPaymentCred, paginate, htn]
      simpa using hr

/-- Witness for C2 at `N = 5`, `k = 2`: the second response carries a null
cursor, so only two calls are made. -/
theorem paginated_null_cursor_stops_witness :
    ((getPaginatedAssetTx (fun i => ⟨[], if i = 0 then some "c" else none⟩)
        ((5 : Nat) : Int)).1.length = 2 ∧
      (getPaginatedAssetTx (fun i => ⟨[], if i = 0 then some "c" else none⟩)
        ((5 : Nat) : Int)).2 = some ⟨[], none⟩) ∧
    ((getPaginatedUtxosByPaymentCred (fun i => ⟨[], if i = 0 then some "u" else none⟩)
        ((5 : Nat) : Int)).1.length = 2 ∧
      (getPaginatedUtxosByPaymentCred (fun i => ⟨[], if i = 0 then some "u" else none⟩)
        ((5 : Nat) : Int)).2 = some ⟨[], none⟩) :=
  paginated_null_cursor_stops (fun i => ⟨[], if i = 0 then some "c" else none⟩)
    (fun i => ⟨[], if i = 0 then some "u" else none⟩) 5 2
    (by norm_num) (by norm_num)
    (fun i hi => by interval_cases i; simp) (by simp)
    (fun i hi => by interval_cases i; simp) (by simp)

/-- C8 (amended): the first call is sent without a cursor, and the cursor sent
with call `i + 1` equals the `next_cursor` of the `i`-th response whenever that
cursor is truthy (a non-empty string); an empty-string `next_cursor` leaves the
query parameter at its previous value instead. -/
theorem paginated_cursor_chain (api : Nat → PaginatedAssetTx)
    (api' : Nat → PaginatedUtxoWithSlot) (page : Int) :
    (∀ v, (getPaginatedAssetTx api page).1.get? 0 = some v → v = none) ∧
    (∀ i v, (getPaginatedAssetTx api page).1.get? (i + 1) = some v →
      cursorTruthy (api i).next_cursor = true → v = (api i).next_cursor) ∧
    (∀ v, (getPaginatedUtxosByPaymentCred api' page).1.get? 0 = some v → v = none) ∧
    (∀ i v, (getPaginatedUtxosByPaymentCred api' page).1.get? (i + 1) = some v →
      cursorTruthy (api' i).next_cursor = true → v = (api' i).next_cursor) := by
  refine ⟨?_, ?_, ?_, ?_⟩
  · intro v hv
    have := paginateGo_trace_zero PaginatedAssetTx.next_cursor api page.toNat 0 none
      (some "") none v hv
    simpa [cursorTruthy] using this
  · intro i v hv ht
    have := paginateGo_trace_succ PaginatedAssetTx.next_cursor api i page.toNat 0 none
      (some "") none v hv (by simpa using ht)
    simpa using this
  · intro v hv
    have := paginateGo_trace_zero PaginatedUtxoWithSlot.next_cursor api' page.toNat 0 none
      (some "") none v hv
    simpa [cursorTruthy] using this
  · intro i v hv ht
    have := paginateGo_trace_succ PaginatedUtxoWithSlot.next_cursor api' i page.toNat 0 none
      (some "") none v hv (by simpa using ht)
    simpa using this

/-- Witness for the amended C8: a two-page run whose first response has the
truthy cursor `"A"`, which is exactly the cursor sent with the second call;
the first call went out cursorless. -/
theorem paginated_cursor_chain_witness :
    ((none : Option String) = none) ∧
    ((some "A" : Option String) =
      ((fun _ => (⟨[], some "A"⟩ : PaginatedAssetTx)) 0).next_cursor) :=
  ⟨(paginated_cursor_chain (fun _ => ⟨[], some "A"⟩) (fun _ => ⟨[], some "B"⟩) 2).1
      none (by decide),
   (paginated_cursor_chain (fun _ => ⟨[], some "A"⟩) (fun _ => ⟨[], some "B"⟩) 2).2.1
      0 (some "A") (by decide) (by decide)⟩

/-- C8 counterexample: when the first response's `next_cursor` is the empty
string (non-null but falsy), the second call is sent with no cursor
(`none`) rather than with that `next_cursor`, so the claimed equality between
the sent cursor and the previous response's `next_cursor` fails. -/
theorem paginated_cursor_chain_cex :
    (getPaginatedAssetTx (fun _ => ⟨[], some ""⟩) 2).1.get? 1 = some none ∧
    ((fun _ => (⟨[], some ""⟩ : PaginatedAssetTx)) 0).next_cursor = some "" ∧
    (getPaginatedUtxosByPaymentCred (fun _ => ⟨[], some ""⟩) 2).1.get? 1 = some none ∧
    ((fun _ => (⟨[], some ""⟩ : PaginatedUtxoWithSlot)) 0).next_cursor = some "" ∧
    (some "" : Option String) ≠ none := by
  refine ⟨by decide, by decide, by decide, by decide, by decide⟩

/-- C9: for every page number `≤ 0` the loop body never runs, no API call is
made, and the `{}` cast object (with no `data` field, modelled `none`) is
returned; `getPoolHistory` then fails (`none`) when it reads `.data`. -/
theorem paginated_nonpositive_page (api : Nat → PaginatedAssetTx)
    (api' : Nat → PaginatedUtxoWithSlot) (page : Int) (h : page ≤ 0) :
    getPaginatedAssetTx api page = ([], none) ∧
    getPaginatedUtxosByPaymentCred api' page = ([], none) ∧
    getPoolHistory api page = none := by
  have htn : page.toNat = 0 := Int.toNat_of_nonpos h
  have h1 : getPaginatedAssetTx api page = ([], none) := by
    simp [getPaginatedAssetTx, paginate, htn, paginateGo]
  have h2 : getPaginatedUtxosByPaymentCred api' page = ([], none) := by
    simp [getPaginatedUtxosByPaymentCred, paginate, htn, paginateGo]
  exact ⟨h1, h2, by simp [getPoolHistory, h1]⟩

/-- Witness for C9 at `page = 0`. -/
theorem paginated_nonpositive_page_witness :
    getPaginatedAssetTx (fun _ => ⟨[], none⟩) 0 = ([], none) ∧
    getPaginatedUtxosByPaymentCred (fun _ => ⟨[], none⟩) 0 = ([], none) ∧
    getPoolHistory (fun _ => ⟨[], none⟩) 0 = none :=
  paginated_nonpositive_page (fun _ => ⟨[], none⟩) (fun _ => ⟨[], none⟩) 0
    (by norm_num)

/-! ## Claim theorems: price computation -/

/-- big.js division by zero throws. -/
lemma bigDiv_zero_den (x : ℚ) : bigDiv x 0 = none := by
  simp [bigDiv]

/-- Dividing zero by a non-zero value is exact in big.js. -/
lemma bigDiv_zero_num (y : ℚ) (hy : y ≠ 0) : bigDiv 0 y = some 0 := by
  have h0 : ((0 : ℚ) / y * 10 ^ bigDP) = 0 := by simp
  have hr : bigRound 0 = 0 := by norm_num [bigRound]
  simp [bigDiv, hy, h0, hr]

/-- C10: a pool with a zero reserve makes `getPoolPrice` throw (big.js
division by zero), rather than return any pair of ratios. -/
theorem getPoolPrice_zero_reserve_throws (reserveA reserveB dA dB : Nat)
    (h : reserveA = 0 ∨ reserveB = 0) :
    getPoolPrice reserveA reserveB dA dB = none := by
  have hpowA : ((10 : ℚ) ^ dA) ≠ 0 := by positivity
  have hpowB : ((10 : ℚ) ^ dB) ≠ 0 := by positivity
  rcases h with rfl | rfl
  · rw [getPoolPrice]
    rw [show ((0 : Nat) : ℚ) = 0 from Nat.cast_zero, bigDiv_zero_num _ hpowA]
    cases hB : bigDiv (reserveB : ℚ) (10 ^ dB) with
    | none => simp [hB]
    | some b =>
      by_cases hb : b = 0
      · subst hb
        simp [hB, bigDiv]
      · simp [hB, bigDiv_zero_num b hb, bigDiv_zero_den]
  · rw [getPoolPrice]
    rw [show ((0 : Nat) : ℚ) = 0 from Nat.cast_zero, bigDiv_zero_num _ hpowB]
    cases hA : bigDiv (reserveA : ℚ) (10 ^ dA) with
    | none => simp [hA]
    | some a =>
      simp [hA, bigDiv_zero_den]

/-- Witness for C10 at `reserveA = 0`, `reserveB = 5`. -/
theorem getPoolPrice_zero_reserve_throws_witness :
    getPoolPrice 0 5 0 0 = none :=
  getPoolPrice_zero_reserve_throws 0 5 0 0 (Or.inl rfl)

/-- C3 counterexample: with reserves `10^21` and `1` (decimals 0), the second
20-decimal-place division rounds `10^-21` down to `0`, so the returned pair is
`(10^21, 0)` and the product of the two prices is `0`, at absolute distance `1`
from the claimed value `1` — far beyond any rounding tolerance. -/
theorem getPoolPrice_product_one_cex :
    getPoolPrice (10 ^ 21) 1 0 0 = some (10 ^ 21, 0) ∧
    (10 ^ 21 : ℚ) * 0 = 0 ∧ |(10 ^ 21 : ℚ) * 0 - 1| = 1 := by
  refine ⟨by norm_num [getPoolPrice, bigDiv, bigRound, bigDP], by norm_num, by norm_num⟩

/-- C3 (amended): the product `priceAB * priceBA` equals `1` exactly whenever
the two price divisions incur no rounding (their exact quotients fit in 20
decimal places); big.js rounding can otherwise push the product as far from
`1` as `0`. -/
theorem getPoolPrice_product_one (rA rB dA dB : Nat) (adjA adjB pAB pBA : ℚ)
    (hA : bigDiv (rA : ℚ) (10 ^ dA) = some adjA)
    (hB : bigDiv (rB : ℚ) (10 ^ dB) = some adjB)
    (hres : getPoolPrice rA rB dA dB = some (pAB, pBA))
    (hex1 : pAB = adjA / adjB) (hex2 : pBA = adjB / adjA) :
    pAB * pBA = 1 := by
  rw [getPoolPrice, hA, hB] at hres
  simp only [Option.bind_eq_bind, Option.some_bind] at hres
  have hne : adjA ≠ 0 ∧ adjB ≠ 0 := by
    cases h1 : bigDiv adjA adjB with
    | none => rw [h1] at hres; simp at hres
    | some p =>
      cases h2 : bigDiv adjB adjA with
      | none => rw [h1, h2] at hres; simp at hres
      | some q =>
        refine ⟨fun h0 => ?_, fun h0 => ?_⟩
        · rw [h0, bigDiv_zero_den] at h2; exact Option.noConfusion h2
        · rw [h0, bigDiv_zero_den] at h1; exact Option.noConfusion h1
  rw [hex1, hex2, div_mul_div_comm, mul_comm adjB adjA]
  exact div_self (mul_ne_zero hne.1 hne.2)

/-- Witness for the amended C3 at reserves `2` and `1` (decimals 0), where all
divisions are exact. -/
theorem getPoolPrice_product_one_witness : (2 : ℚ) * (1 / 2) = 1 :=
  getPoolPrice_product_one 2 1 0 0 2 1 2 (1 / 2)
    (by norm_num [bigDiv, bigRound, bigDP]) (by norm_num [bigDiv, bigRound, bigDP])
    (by norm_num [getPoolPrice, bigDiv, bigRound, bigDP]) (by norm_num) (by norm_num)

/-- C4 counterexample: at reserves `1` and `3` (decimals 0) the first returned
component is the 20-decimal-place rounding `0.33333333333333333333`, not the
exact ratio `(1/10^0)/(3/10^0) = 1/3`. -/
theorem getPoolPrice_formula_cex :
    getPoolPrice 1 3 0 0 =
      some (33333333333333333333 / 100000000000000000000, 3) ∧
    (33333333333333333333 / 100000000000000000000 : ℚ) ≠
      ((1 : ℚ) / 10 ^ 0) / ((3 : ℚ) / 10 ^ 0) := by
  refine ⟨by norm_num [getPoolPrice, bigDiv, bigRound, bigDP], by norm_num⟩

/-- C4 (amended): each reserve is divided by `10 ^ decimals` and the two
directional ratios are returned, with every division rounded to 20 decimal
places; whenever those divisions are exact the result equals the claimed pair
`((rA/10^dA)/(rB/10^dB), (rB/10^dB)/(rA/10^dA))` on the nose. -/
theorem getPoolPrice_formula (rA rB dA dB : Nat) (pAB pBA : ℚ)
    (hres : getPoolPrice rA rB dA dB = some (pAB, pBA))
    (hA : bigDiv (rA : ℚ) (10 ^ dA) = some ((rA : ℚ) / 10 ^ dA))
    (hB : bigDiv (rB : ℚ) (10 ^ dB) = some ((rB : ℚ) / 10 ^ dB))
    (hex1 : bigDiv ((rA : ℚ) / 10 ^ dA) ((rB : ℚ) / 10 ^ dB) =
      some (((rA : ℚ) / 10 ^ dA) / ((rB : ℚ) / 10 ^ dB)))
    (hex2 : bigDiv ((rB : ℚ) / 10 ^ dB) ((rA : ℚ) / 10 ^ dA) =
      some (((rB : ℚ) / 10 ^ dB) / ((rA : ℚ) / 10 ^ dA))) :
    pAB = ((rA : ℚ) / 10 ^ dA) / ((rB : ℚ) / 10 ^ dB) ∧
    pBA = ((rB : ℚ) / 10 ^ dB) / ((rA : ℚ) / 10 ^ dA) := by
  rw [getPoolPrice, hA, hB] at hres
  simp only [Option.bind_eq_bind, Option.some_bind] at hres
  rw [hex1] at hres
  simp only [Option.some_bind] at hres
  rw [hex2] at hres
  simp only [Option.some_bind, Option.pure_def, Option.some_inj, Prod.ext_iff] at hres
  exact ⟨hres.1.symm, hres.2.symm⟩

/-- Witness for the amended C4 at reserves `1` and `4` (decimals 0), where the
quotients `0.25` and `4` are exactly representable. -/
theorem getPoolPrice_formula_witness :
    (1 / 4 : ℚ) = (((1 : Nat) : ℚ) / 10 ^ 0) / (((4 : Nat) : ℚ) / 10 ^ 0) ∧
    (4 : ℚ) = (((4 : Nat) : ℚ) / 10 ^ 0) / (((1 : Nat) : ℚ) / 10 ^ 0) :=
  getPoolPrice_formula 1 4 0 0 (1 / 4) 4
    (by norm_num [getPoolPrice, bigDiv, bigRound, bigDP])
    (by norm_num [bigDiv, bigRound, bigDP]) (by norm_num [bigDiv, bigRound, bigDP])
    (by norm_num [bigDiv, bigRound, bigDP]) (by norm_num [bigDiv, bigRound, bigDP])

/-! ## Claim theorem: `getAssetDecimals` error handling -/

/-- C5: for any asset other than `"lovelace"`, a failed metadata lookup is
swallowed into decimals `0` exactly when the identifier is a non-empty
hexadecimal string of length at most `122`, and the same error is rethrown
otherwise; a successful lookup never throws (it returns the registry decimals,
defaulting to `0`). -/
theorem getAssetDecimals_error_handling (ε : Type) (asset : String) (e : ε)
    (h : asset ≠ "lovelace") :
    (getAssetDecimals ε asset (.error e) = .ok 0 ↔
      isValidHex asset = true ∧ asset.length ≤ 122) ∧
    (¬(isValidHex asset = true ∧ asset.length ≤ 122) →
      getAssetDecimals ε asset (.error e) = .error e) ∧
    (∀ d : Option Nat, getAssetDecimals ε asset (.ok d) = .ok (d.getD 0)) := by
  refine ⟨?_, ?_, ?_⟩
  · by_cases hc : isValidHex asset = true ∧ asset.length ≤ 122
    · simp [getAssetDecimals, h, hc]
    · simp [getAssetDecimals, h, hc]
  · intro hc
    simp [getAssetDecimals, h, hc]
  · intro d
    simp [getAssetDecimals, h]

/-- Witness for C5: the hex asset id `"abc"` maps to decimals `0` when the
lookup fails. -/
theorem getAssetDecimals_error_handling_witness :
    getAssetDecimals String "abc" (.error "boom") = .ok 0 :=
  (getAssetDecimals_error_handling String "abc" "boom" (by decide)).1.mpr
    (by decide)

/-! ## Claim theorem: pool-state construction invariants -/

/-- C6: every `PoolState` that `getPoolInTx` returns successfully has a
non-empty datum hash and an address resolving to the expected pool script
hash, and when the selected pool output lacks a datum hash the call throws
instead of returning a `PoolState`. -/
theorem getPoolInTx_invariants (scriptHashOf : String → Option String)
    (poolScriptHash txHash : String) (outputs : List TxOutput) :
    (∀ ps, getPoolInTx scriptHashOf poolScriptHash txHash outputs = .ok (some ps) →
      ps.datumHash ≠ "" ∧ scriptHashOf ps.address = some poolScriptHash) ∧
    (∀ o, (outputs.find? fun o' =>
        decide (scriptHashOf o'.address = some poolScriptHash)) = some o →
      o.datum_hash.getD "" = "" →
      getPoolInTx scriptHashOf poolScriptHash txHash outputs =
        .error .invalidPoolOutput) := by
  constructor
  · intro ps hps
    unfold getPoolInTx at hps
    cases hfind : outputs.find? fun o' =>
        decide (scriptHashOf o'.address = some poolScriptHash) with
    | none =>
      rw [hfind] at hps
      have hps2 : (Except.ok none : Except PoolError (Option PoolState)) =
          .ok (some ps) := hps
      simp at hps2
    | some o =>
      rw [hfind] at hps
      have hps2 : (if checkValidPoolOutput scriptHashOf poolScriptHash o.address
            (toValue o.assets) (o.datum_hash.getD "") = false then
              (Except.error PoolError.invalidPoolOutput :
                Except PoolError (Option PoolState))
            else if o.datum_hash.getD "" = "" then
              Except.error PoolError.missingDatumHash
            else Except.ok (some ⟨o.address, txHash, o.index, toValue o.assets,
              o.datum_hash.getD ""⟩)) = .ok (some ps) := hps
      by_cases hchk : checkValidPoolOutput scriptHashOf poolScriptHash o.address
          (toValue o.assets) (o.datum_hash.getD "") = false
      · rw [if_pos hchk] at hps2
        exact absurd hps2 (by simp)
      · rw [if_neg hchk] at hps2
        have hvalid : checkValidPoolOutput scriptHashOf poolScriptHash o.address
            (toValue o.assets) (o.datum_hash.getD "") = true :=
          Bool.not_eq_false _ |>.mp hchk
        rw [checkValidPoolOutput, Bool.and_eq_true, decide_eq_true_iff,
          bne_iff_ne] at hvalid
        rw [if_neg hvalid.2] at hps2
        have hps' : ps = ⟨o.address, txHash, o.index, toValue o.assets,
            o.datum_hash.getD ""⟩ :=
          (Option.some.inj (Except.ok.inj hps2)).symm
        subst hps'
        exact ⟨hvalid.2, hvalid.1⟩
  · intro o hfind hdat
    unfold getPoolInTx
    rw [hfind]
    have hchk : checkValidPoolOutput scriptHashOf poolScriptHash o.address
        (toValue o.assets) (o.datum_hash.getD "") = false := by
      rw [checkValidPoolOutput, hdat]
      simp
    show (if checkValidPoolOutput scriptHashOf poolScriptHash o.address
        (toValue o.assets) (o.datum_hash.getD "") = false then
          (Except.error PoolError.invalidPoolOutput :
            Except PoolError (Option PoolState))
        else if o.datum_hash.getD "" = "" then
          Except.error PoolError.missingDatumHash
        else Except.ok (some ⟨o.address, txHash, o.index, toValue o.assets,
          o.datum_hash.getD ""⟩)) = .error .invalidPoolOutput
    rw [if_pos hchk]

/-- Witness for C6: one pool output with datum hash `"dh"` at an address that
resolves to the expected script hash. -/
theorem getPoolInTx_invariants_witness :
    ("dh" : String) ≠ "" ∧
    (fun a => if a = "addr1" then some "PSH" else none) "addr1" = some "PSH" :=
  (getPoolInTx_invariants (fun a => if a = "addr1" then some "PSH" else none)
      "PSH" "tx" [⟨"addr1", [], 0, some "dh"⟩]).1
    ⟨"addr1", "tx", 0, [], "dh"⟩ (by rfl)

/-! ## Claim theorems: pool-history fields -/

/-- C7 counterexample: the maestro-adapter.ts `getPoolHistory` fills
`blockHeight` with the constant `9913642` (and `txIndex` with `0`) for any
upstream response whatsoever — here two responses differing in every field
yield the same `blockHeight` — so those fields do not equal any field of the
response; they are independent of it. -/
theorem poolHistory_fields_cex :
    (maestroGetPoolHistory ⟨[⟨"aa", "t1"⟩], some "c"⟩).map PoolHistory.blockHeight =
      [some 9913642] ∧
    (maestroGetPoolHistory ⟨[⟨"bb", "t2"⟩], none⟩).map PoolHistory.blockHeight =
      [some 9913642] ∧
    (maestroGetPoolHistory ⟨[⟨"aa", "t1"⟩], some "c"⟩).map PoolHistory.txIndex =
      [some 0] ∧
    (maestroGetPoolHistory ⟨[⟨"bb", "t2"⟩], none⟩).map PoolHistory.txIndex =
      [some 0] ∧
    (⟨[⟨"aa", "t1"⟩], some "c"⟩ : PaginatedAssetTx) ≠ ⟨[⟨"bb", "t2"⟩], none⟩ := by
  refine ⟨by decide, by decide, by decide, by decide, by decide⟩

/-- C7 (amended): in both `getPoolHistory` variants each entry's `txHash` and
`time` equal the matching transaction's `tx_hash` and `timestamp` in the
upstream response; the adapter.ts variant sets no block height/index at all,
while the maestro-adapter.ts variant sets `txIndex` and `blockHeight` to the
constants `0` and `9913642` independently of the response. -/
theorem poolHistory_fields (res : PaginatedAssetTx) (api : Nat → PaginatedAssetTx)
    (page : Int) (l : List PoolHistory)
    (hl : getPoolHistory api page = some l) :
    ((maestroGetPoolHistory res).map PoolHistory.txHash =
        res.data.map AssetTx.tx_hash ∧
      (maestroGetPoolHistory res).map PoolHistory.time =
        res.data.map AssetTx.timestamp ∧
      ∀ h ∈ maestroGetPoolHistory res,
        h.txIndex = some 0 ∧ h.blockHeight = some 9913642) ∧
    (∃ r, (getPaginatedAssetTx api page).2 = some r ∧
      l.map PoolHistory.txHash = r.data.map AssetTx.tx_hash ∧
      l.map PoolHistory.time = r.data.map AssetTx.timestamp ∧
      ∀ h ∈ l, h.txIndex = none ∧ h.blockHeight = none) := by
  constructor
  · refine ⟨?_, ?_, ?_⟩
    · simp [maestroGetPoolHistory, List.map_map, Function.comp]
    · simp [maestroGetPoolHistory, List.map_map, Function.comp]
    · intro h hmem
      rw [maestroGetPoolHistory, List.mem_map] at hmem
      obtain ⟨tx, _, rfl⟩ := hmem
      exact ⟨rfl, rfl⟩
  · unfold getPoolHistory at hl
    cases hres : (getPaginatedAssetTx api page).2 with
    | none =>
      rw [hres] at hl
      have hl2 : (none : Option (List PoolHistory)) = some l := hl
      simp at hl2
    | some r =>
      rw [hres] at hl
      refine ⟨r, rfl, ?_⟩
      have hl2 : some (r.data.map fun tx =>
          (⟨tx.tx_hash, none, none, tx.timestamp⟩ : PoolHistory)) = some l := hl
      have hl' : l = r.data.map fun tx =>
          (⟨tx.tx_hash, none, none, tx.timestamp⟩ : PoolHistory) :=
        (Option.some.inj hl2).symm
      subst hl'
      refine ⟨?_, ?_, ?_⟩
      · simp [List.map_map, Function.comp]
      · simp [List.map_map, Function.comp]
      · intro h hmem
        rw [List.mem_map] at hmem
        obtain ⟨tx, _, rfl⟩ := hmem
        exact ⟨rfl, rfl⟩

/-- Witness for the amended C7: a one-transaction response fetched at page 1. -/
theorem poolHistory_fields_witness :
    ∃ r, (getPaginatedAssetTx (fun _ => ⟨[⟨"aa", "t"⟩], none⟩) 1).2 = some r ∧
      ([⟨"aa", none, none, "t"⟩] : List PoolHistory).map PoolHistory.txHash =
        r.data.map AssetTx.tx_hash ∧
      ([⟨"aa", none, none, "t"⟩] : List PoolHistory).map PoolHistory.time =
        r.data.map AssetTx.timestamp ∧
      ∀ h ∈ ([⟨"aa", none, none, "t"⟩] : List PoolHistory),
        h.txIndex = none ∧ h.blockHeight = none :=
  (poolHistory_fields ⟨[⟨"aa", "t"⟩], none⟩ (fun _ => ⟨[⟨"aa", "t"⟩], none⟩) 1
    [⟨"aa", none, none, "t"⟩] (by decide)).2

